import Mathlib

/-!
Verification of the ingestion-and-retrieval pipeline of the dev-hive
repository: a shallow embedding in Lean 4 of
`server/utils/pinecone_utils.py` (the retrying vector-store gateway),
`server/utils/gemini_utils.py` (the embedding gateway wrapper) and
`server/utils/integration_manager.py` (the integration orchestrator and
its batch deduplicator), together with theorems settling the spec's
claims about retry/backoff, deduplication and orchestration counters.

Modelling conventions:
* Python exceptions are `Except String`; a Python function that can
  raise returns `Except`.
* `time.sleep` calls and `index.upsert` / `index.query` attempts are
  recorded in an event trace (`QEv`), so "sleeps X before the next
  attempt" is a statement about the trace.
* The external store is an oracle: for the retry loops, a function from
  the attempt number to that attempt's outcome (the call arguments are
  fixed for the whole loop, so they are absorbed into the oracle); for
  the orchestrator, the upsert outcome is a function of the batch.
* Embedding values are opaque scalars passed through unchanged; they are
  modelled as `Int` (the pipeline never computes with them, it only
  builds and forwards the lists).
* The chunker lives in `enhanced_chunker.py`, outside the embedded
  files; the orchestrator is parameterised by an arbitrary chunking
  function `String → List Chunk`, which subsumes the real one.
-/

set_option maxRecDepth 10000

namespace DevHive

/-- Events of a retry loop: `att n` is the n-th call to the store
(0-based), `slp t` is `time.sleep(t)` with duration `t`. -/
inductive QEv where
  | att (n : Nat)
  | slp (amt : Nat)
deriving DecidableEq

/-- Bool-valued check that `pat` is a contiguous sublist of `s`
(Python's `pat in s` on strings). -/
def isPre (pat s : List Char) : Bool :=
  match pat, s with
  | [], _ => true
  | _ :: _, [] => false
  | a :: ps, b :: ss => a == b && isPre ps ss

/-- Scan helper for `hasSub`: does `pat` occur at some position of the
second list? -/
def hasSubAux (pat : List Char) : List Char → Bool
  | [] => isPre pat []
  | c :: rest => isPre pat (c :: rest) || hasSubAux pat rest

/-- `pat in s` for Python strings. -/
def hasSub (s pat : String) : Bool := hasSubAux pat.data s.data

/-- Python `str.lower` (restricted to the ASCII casing the error
messages use, via `Char.toLower`). -/
def lowerStr (s : String) : String := ⟨s.data.map Char.toLower⟩

/-- The rate-limit test of `query_chunks`:
`"too many" in error_msg.lower() or "rate limit" in error_msg.lower()`. -/
def isRateLimit (msg : String) : Bool :=
  hasSub (lowerStr msg) "too many" || hasSub (lowerStr msg) "rate limit"

/-- The transient-server-error test of `query_chunks`:
`"500" in error_msg or "internal server error" in error_msg.lower()`. -/
def isServerError (msg : String) : Bool :=
  hasSub msg "500" || hasSub (lowerStr msg) "internal server error"

/-- The retry loop of `upsert_chunks` (`pinecone_utils.py`), as a
function of the remaining iteration count `fuel` and the current
0-based attempt index `a`.  `store a = none` means attempt `a`'s
`index.upsert` succeeds; `store a = some e` means it raises `e`.
Falling off the loop (only possible when `max_retries = 0`) is Python's
implicit `return None`, modelled as `.ok none`; a normal success returns
`True`, modelled `.ok (some true)`. -/
def upsert_go {ε : Type} (store : Nat → Option ε) (d : Nat) :
    Nat → Nat → Except ε (Option Bool) × List QEv
  | 0, _ => (.ok none, [])
  | fuel + 1, a =>
    match store a with
    | none => (.ok (some true), [QEv.att a])
    | some e =>
      if fuel = 0 then (.error e, [QEv.att a])
      else
        let rest := upsert_go store d fuel (a + 1)
        (rest.1, QEv.att a :: QEv.slp (d * 2 ^ a) :: rest.2)

/-- `upsert_chunks(vectors, max_retries=3, retry_delay=1)`: run the
retry loop from attempt 0. -/
def upsert_chunks {ε : Type} (store : Nat → Option ε)
    (max_retries retry_delay : Nat) : Except ε (Option Bool) × List QEv :=
  upsert_go store retry_delay max_retries 0

/-- The retry loop of `query_chunks` (`pinecone_utils.py`).  `store a`
is the outcome of attempt `a`'s `index.query` (the query arguments are
fixed for the whole call).  Attempts after the first are preceded by a
sleep of `retry_delay * 2 ^ attempt`; a rate-limit error sleeps twice
the normal backoff, a 5xx/internal-server error sleeps the normal
backoff, and any other error is re-raised at once. -/
def query_go {δ : Type} (store : Nat → Except String δ) (d : Nat) :
    Nat → Nat → Except String (Option δ) × List QEv
  | 0, _ => (.ok none, [])
  | fuel + 1, a =>
    let pre : List QEv := if 0 < a then [QEv.slp (d * 2 ^ a)] else []
    match store a with
    | .ok r => (.ok (some r), pre ++ [QEv.att a])
    | .error msg =>
      if isRateLimit msg then
        if fuel = 0 then (.error msg, pre ++ [QEv.att a, QEv.slp (2 * (d * 2 ^ a))])
        else
          let rest := query_go store d fuel (a + 1)
          (rest.1, pre ++ [QEv.att a, QEv.slp (2 * (d * 2 ^ a))] ++ rest.2)
      else if isServerError msg then
        if fuel = 0 then (.error msg, pre ++ [QEv.att a, QEv.slp (d * 2 ^ a)])
        else
          let rest := query_go store d fuel (a + 1)
          (rest.1, pre ++ [QEv.att a, QEv.slp (d * 2 ^ a)] ++ rest.2)
      else (.error msg, pre ++ [QEv.att a])

/-- `query_chunks(vector, top_k=5, metadata_filter=None, max_retries=3,
retry_delay=1)`: run the retry loop from attempt 0. -/
def query_chunks {δ : Type} (store : Nat → Except String δ)
    (max_retries retry_delay : Nat) : Except String (Option δ) × List QEv :=
  query_go store retry_delay max_retries 0

/-- `check_index_health()` (`pinecone_utils.py`): issue one probe query
with a zero vector of dimension 768, `top_k = 1`, metadata excluded,
and report whether it completed without raising.  `indexQuery` is
`index.query` as a function of `(vector, top_k, include_metadata)`. -/
def check_index_health {δ : Type}
    (indexQuery : List Int → Nat → Bool → Except String δ) : Bool :=
  match indexQuery (List.replicate 768 0) 1 false with
  | .ok _ => true
  | .error _ => false

/-- Is a trace event a store attempt (as opposed to a sleep)? -/
def isAtt : QEv → Bool
  | QEv.att _ => true
  | QEv.slp _ => false

/-- A store oracle that fails on attempts 0 and 1 and succeeds on 2. -/
def upsertStoreW : Nat → Option String := fun a =>
  if a = 0 then some "boom0" else if a = 1 then some "boom1" else none

/-- A store oracle that always raises a malformed-query error. -/
def queryStoreW : Nat → Except String Nat := fun _ => .error "invalid filter"

/-- A store oracle that hits a rate limit on attempt 0, then succeeds. -/
def queryStoreW2 : Nat → Except String Nat := fun a =>
  if a = 0 then .error "429 too many requests" else .ok 7

/-- A content item handed to the pipeline by a connector
(`{title, source, type, content}`; Slack items may carry a
`timestamp` key, read with `item.get("timestamp", ...)`). -/
structure Item where
  title : String
  source : String
  typ : String
  content : String
  timestamp : Option String
deriving DecidableEq

/-- A chunk produced by `chunk_text` (the fields the orchestrator
reads: `id`, `text`, `content_hash`, `chunk_index`, `sentence_count`,
`word_count`, `start_pos`, `end_pos`). -/
structure Chunk where
  id : String
  text : String
  content_hash : String
  chunk_index : Nat
  sentence_count : Nat
  word_count : Nat
  start_pos : Nat
  end_pos : Nat
deriving DecidableEq

/-- The metadata dict the orchestrator builds for each vector.
`content_hash` is `Option` because `_deduplicate_vectors` reads it with
`metadata.get("content_hash")`, which yields `None` when absent. -/
structure Metadata where
  text : String
  content_hash : Option String
  title : String
  source : String
  typ : String
  integration : String
  source_name : String
  chunk_index : Nat
  sentence_count : Nat
  word_count : Nat
  start_pos : Nat
  end_pos : Nat
  integration_timestamp : String
  timestamp : String
deriving DecidableEq

/-- A vector record as sent to the store:
`{id, values, metadata}`. -/
structure VectorRecord where
  id : String
  values : List Int
  metadata : Metadata
deriving DecidableEq

/-- Python truthiness of `metadata.get("content_hash")`: present and a
non-empty string. -/
def truthy : Option String → Bool
  | none => false
  | some s => !(s == "")

/-- The loop of `_deduplicate_vectors`: `seen` is the `seen_hashes`
set accumulated so far (as a list); a record is kept iff its
`content_hash` is truthy and not yet seen. -/
def dedup_go (seen : List String) : List VectorRecord → List VectorRecord
  | [] => []
  | v :: rest =>
    match v.metadata.content_hash with
    | some h =>
      if h ≠ "" ∧ h ∉ seen then v :: dedup_go (h :: seen) rest
      else dedup_go seen rest
    | none => dedup_go seen rest

/-- `IntegrationManager._deduplicate_vectors`. -/
def deduplicate_vectors (vectors : List VectorRecord) : List VectorRecord :=
  dedup_go [] vectors

/-- `get_embedding` (`gemini_utils.py`): empty text yields `[]`
without calling the API; an API failure is caught and yields `[]`; an
API success returns the embedding.  `api` is the external
`genai.embed_content` call. -/
def get_embedding (api : String → Except String (List Int)) (text : String) :
    List Int :=
  if text = "" then []
  else
    match api text with
    | .ok v => v
    | .error _ => []

/-- The `vector_data` dict built per chunk by the `integrate_*`
methods.  `integration` and `source_name` are both set to the source's
name; github/notion set `timestamp` to the current time, slack reads
`item.get("timestamp", now)` (`useItemTs`). -/
def mkVector (integration source_name : String) (useItemTs : Bool) (now : String)
    (embed : String → List Int) (item : Item) (c : Chunk) : VectorRecord :=
  { id := c.id, values := embed c.text,
    metadata := { text := c.text, content_hash := some c.content_hash,
                  title := item.title, source := item.source, typ := item.typ,
                  integration := integration, source_name := source_name,
                  chunk_index := c.chunk_index, sentence_count := c.sentence_count,
                  word_count := c.word_count, start_pos := c.start_pos,
                  end_pos := c.end_pos, integration_timestamp := now,
                  timestamp := if useItemTs then item.timestamp.getD now else now } }

/-- The per-source result dict.  On failure the Python dict carries
only `success`, `error`, `chunks_processed = 0`, `chunks_stored = 0`;
the remaining keys are absent, modelled as `none`. -/
structure SourceResult where
  success : Bool
  error : Option String
  source : Option String
  docs_processed : Option Nat
  chunks_processed : Nat
  chunks_stored : Nat
  duplicates_removed : Option Nat
  integration : Option String
deriving DecidableEq

/-- The `for item in data` loop of the `integrate_*` methods.
`upsertFails b = some e` means `upsert_chunks(b)` exhausts its retries
and raises `e`, aborting the loop (the Python exception propagates to
the method's `except`); earlier upserted batches stay in the store
log.  On success the accumulated (pre-dedup count, post-dedup count,
upsert log) is returned.  An empty deduplicated batch is not
upserted. -/
def integrate_loop (mkV : Item → Chunk → VectorRecord)
    (chunker : String → List Chunk)
    (upsertFails : List VectorRecord → Option String) :
    List Item → Nat → Nat → List (List VectorRecord) →
      Except (List (List VectorRecord) × String)
        (Nat × Nat × List (List VectorRecord))
  | [], total, stored, log => .ok (total, stored, log)
  | item :: rest, total, stored, log =>
    let chunks := chunker item.content
    let vectors := chunks.map (mkV item)
    let uniq := deduplicate_vectors vectors
    if uniq.isEmpty then
      integrate_loop mkV chunker upsertFails rest
        (total + chunks.length) (stored + uniq.length) log
    else
      match upsertFails uniq with
      | some emsg => .error (log, emsg)
      | none =>
        integrate_loop mkV chunker upsertFails rest
          (total + chunks.length) (stored + uniq.length) (log ++ [uniq])

/-- The common body of `integrate_github` / `integrate_notion` /
`integrate_slack` (the three Python methods are textually identical up
to the source name, the result's `source` label, the error-message
label, and slack's per-item timestamp).  `data` is the connector's
result; Python's `if not data` covers both "no data" and "token not
configured" (the connector returns an empty/None result in both
cases).  The second component is the store's upsert log. -/
def integrate_source (integration srcLabel errLabel : String) (useItemTs : Bool)
    (chunker : String → List Chunk) (embed : String → List Int)
    (upsertFails : List VectorRecord → Option String) (now : String)
    (data : List Item) : SourceResult × List (List VectorRecord) :=
  if data.isEmpty then
    ({ success := false,
       error := some ("No data found or " ++ errLabel ++ " token not configured"),
       source := none, docs_processed := none, chunks_processed := 0,
       chunks_stored := 0, duplicates_removed := none, integration := none }, [])
  else
    match integrate_loop (mkVector integration integration useItemTs now embed)
        chunker upsertFails data 0 0 [] with
    | .ok (total, stored, log) =>
      ({ success := true, error := none, source := some srcLabel,
         docs_processed := some data.length, chunks_processed := total,
         chunks_stored := stored, duplicates_removed := some (total - stored),
         integration := some integration }, log)
    | .error (elog, emsg) =>
      ({ success := false,
         error := some (errLabel ++ " integration failed: " ++ emsg),
         source := none, docs_processed := none, chunks_processed := 0,
         chunks_stored := 0, duplicates_removed := none, integration := none },
       elog)

/-- `IntegrationManager.integrate_github(owner, repo)`. -/
def integrate_github (owner repo : String) (chunker : String → List Chunk)
    (embed : String → List Int) (upsertFails : List VectorRecord → Option String)
    (now : String) (data : List Item) : SourceResult × List (List VectorRecord) :=
  integrate_source "github" ("github://" ++ owner ++ "/" ++ repo) "GitHub" false
    chunker embed upsertFails now data

/-- `IntegrationManager.integrate_notion(...)`. -/
def integrate_notion (chunker : String → List Chunk) (embed : String → List Int)
    (upsertFails : List VectorRecord → Option String) (now : String)
    (data : List Item) : SourceResult × List (List VectorRecord) :=
  integrate_source "notion" "notion://workspace" "Notion" false
    chunker embed upsertFails now data

/-- `IntegrationManager.integrate_slack(...)`. -/
def integrate_slack (chunker : String → List Chunk) (embed : String → List Int)
    (upsertFails : List VectorRecord → Option String) (now : String)
    (data : List Item) : SourceResult × List (List VectorRecord) :=
  integrate_source "slack" "slack://workspace" "Slack" true
    chunker embed upsertFails now data

/-- The aggregate result of `integrate_all_sources`. -/
structure AllResult where
  success : Bool
  error : Option String
  integrations : List SourceResult
  total_chunks_processed : Nat
  total_chunks_stored : Nat
  total_duplicates_removed : Nat
  sources_integrated : List String
deriving DecidableEq

/-- The per-source aggregation step of `integrate_all_sources`: the
result is always appended to `integrations`; the totals and the
`sources_integrated` list are updated only when the source succeeded
(Python reads the counter keys with `.get(key, 0)`). -/
def addSource (acc : AllResult) (name : String) (r : SourceResult) : AllResult :=
  { acc with
    integrations := acc.integrations ++ [r],
    sources_integrated :=
      if r.success then acc.sources_integrated ++ [name]
      else acc.sources_integrated,
    total_chunks_processed :=
      if r.success then acc.total_chunks_processed + r.chunks_processed
      else acc.total_chunks_processed,
    total_chunks_stored :=
      if r.success then acc.total_chunks_stored + r.chunks_stored
      else acc.total_chunks_stored,
    total_duplicates_removed :=
      if r.success then
        acc.total_duplicates_removed + r.duplicates_removed.getD 0
      else acc.total_duplicates_removed }

/-- `IntegrationManager.integrate_all_sources`: run github, then
notion, then slack (each only when configured), sequentially against
the shared store; the store's upsert log is the concatenation of the
per-source logs.  A config of `none` models an absent
`*_config` argument.  Nothing in the loop raises (each `integrate_*`
catches its own exceptions), so the aggregate `success` is `True`. -/
def integrate_all_sources (chunker : String → List Chunk)
    (embed : String → List Int)
    (upsertFails : List VectorRecord → Option String) (now : String)
    (githubCfg : Option (String × String × List Item))
    (notionCfg : Option (List Item)) (slackCfg : Option (List Item)) :
    AllResult × List (List VectorRecord) :=
  let r0 : AllResult :=
    { success := true, error := none, integrations := [],
      total_chunks_processed := 0, total_chunks_stored := 0,
      total_duplicates_removed := 0, sources_integrated := [] }
  let s1 :=
    match githubCfg with
    | none => (r0, ([] : List (List VectorRecord)))
    | some (owner, repo, data) =>
      let g := integrate_github owner repo chunker embed upsertFails now data
      (addSource r0 "github" g.1, g.2)
  let s2 :=
    match notionCfg with
    | none => s1
    | some data =>
      let n := integrate_notion chunker embed upsertFails now data
      (addSource s1.1 "notion" n.1, s1.2 ++ n.2)
  match slackCfg with
  | none => s2
  | some data =>
    let s := integrate_slack chunker embed upsertFails now data
    (addSource s2.1 "slack" s.1, s2.2 ++ s.2)

/-- A one-chunk-per-item chunking function whose hash is a fingerprint
of the text (equal content yields equal hash, per the spec's
deterministic `fingerprint`). -/
def chunkOf (s : String) : Chunk :=
  { id := "id:" ++ s, text := s, content_hash := "#" ++ s, chunk_index := 0,
    sentence_count := 1, word_count := 1, start_pos := 0, end_pos := 1 }

/-- Chunker for the concrete scenarios: one chunk per item. -/
def chunker1 : String → List Chunk := fun s => [chunkOf s]

/-- An embedding function that always succeeds. -/
def embed1 : String → List Int := fun _ => [1]

/-- A store whose upserts always succeed. -/
def upOk : List VectorRecord → Option String := fun _ => none

/-- Scenario item for the duplicate-count witness. -/
def item2 : Item :=
  { title := "T", source := "s", typ := "document", content := "x",
    timestamp := none }

/-- Two chunks of `item2` with identical content hashes. -/
def chunker2 : String → List Chunk := fun _ =>
  [{ id := "a", text := "dup", content_hash := "#d", chunk_index := 0,
     sentence_count := 1, word_count := 1, start_pos := 0, end_pos := 3 },
   { id := "b", text := "dup", content_hash := "#d", chunk_index := 1,
     sentence_count := 1, word_count := 1, start_pos := 3, end_pos := 6 }]

/-- The concrete run for the duplicate-count witness. -/
def srcRun2 : SourceResult × List (List VectorRecord) :=
  integrate_source "github" "github://o/r" "GitHub" false chunker2 embed1 upOk
    "t0" [item2]

/-- A record for the deduplication witnesses. -/
def mkRec (idn : String) (hash : Option String) (sname : String) : VectorRecord :=
  { id := idn, values := [1],
    metadata := { text := "t", content_hash := hash, title := "T", source := "s",
                  typ := "document", integration := sname, source_name := sname,
                  chunk_index := 0, sentence_count := 1, word_count := 1,
                  start_pos := 0, end_pos := 1, integration_timestamp := "t0",
                  timestamp := "t0" } }

/-- A batch with a duplicated hash across two sources. -/
def dedupBatchW : List VectorRecord :=
  [mkRec "a" (some "h1") "github", mkRec "b" (some "h1") "slack",
   mkRec "c" (some "h2") "slack"]

/-- Chunker yielding a single chunk with an empty `content_hash`. -/
def chunker10 : String → List Chunk := fun _ =>
  [{ id := "u1", text := "unique-text", content_hash := "", chunk_index := 0,
     sentence_count := 1, word_count := 2, start_pos := 0, end_pos := 11 }]

/-- The concrete run for the falsy-hash witness. -/
def srcRun10 : SourceResult × List (List VectorRecord) :=
  integrate_source "github" "github://o/r" "GitHub" false chunker10 embed1 upOk
    "t0" [item2]

/-- Scenario item for the embedding-failure run. -/
def item6 : Item :=
  { title := "T", source := "s", typ := "document", content := "bad good",
    timestamp := none }

/-- Two chunks, one of which ("bad") will fail to embed. -/
def chunker6 : String → List Chunk := fun _ =>
  [{ id := "c1", text := "bad", content_hash := "#bad", chunk_index := 0,
     sentence_count := 1, word_count := 1, start_pos := 0, end_pos := 3 },
   { id := "c2", text := "good", content_hash := "#good", chunk_index := 1,
     sentence_count := 1, word_count := 1, start_pos := 4, end_pos := 8 }]

/-- An embedding API that raises on the text "bad" and succeeds
otherwise. -/
def api6 : String → Except String (List Int) := fun t =>
  if t = "bad" then .error "embedding API down" else .ok [5]

/-- The embedding-failure run. -/
def run6 : SourceResult × List (List VectorRecord) :=
  integrate_source "github" "github://o/r" "GitHub" false chunker6
    (get_embedding api6) upOk "t0" [item6]

/-- The integrate-all run whose github connector returned no data (or
had no credentials — the connector returns an empty result in both
cases, so the orchestrator cannot and does not distinguish them). -/
def run7 : AllResult × List (List VectorRecord) :=
  integrate_all_sources chunker1 embed1 upOk "t0" (some ("o", "r", [])) none none

/-- The github item of the cross-source duplicate scenario. -/
def gItem (x : String) : Item :=
  { title := "G", source := "github://o/r/readme", typ := "document",
    content := x, timestamp := none }

/-- The slack item of the cross-source duplicate scenario, with the
same content. -/
def sItem (x : String) : Item :=
  { title := "S", source := "slack://c1", typ := "message", content := x,
    timestamp := some "123" }

/-- The integrate-all run with identical content arriving from github
then slack. -/
def run1 (x : String) : AllResult × List (List VectorRecord) :=
  integrate_all_sources chunker1 embed1 upOk "t0"
    (some ("o", "r", [gItem x])) none (some [sItem x])

/-- The records stored for the shared content in that run. -/
def storedFor (x : String) : List VectorRecord :=
  (run1 x).2.flatten.filter
    (fun v => v.metadata.content_hash == some ("#" ++ x))

/-- The upsert retry loop makes at most `fuel` attempts. -/
theorem upsert_go_att_le {ε : Type} (store : Nat → Option ε) (d : Nat) :
    ∀ fuel a, ((upsert_go store d fuel a).2.countP isAtt) ≤ fuel := by
  intro fuel
  induction fuel with
  | zero => intro a; simp [upsert_go]
  | succ n ih =>
    intro a
    simp only [upsert_go]
    cases h : store a with
    | none => simp [List.countP, List.countP.go, isAtt]
    | some e =>
      by_cases hf : n = 0
      · subst hf; simp [List.countP, List.countP.go, isAtt]
      · have hih := ih (a + 1)
        simp only [if_neg hf, List.countP_cons, isAtt]
        simp only [if_true, if_false, Bool.false_eq_true, reduceIte]
        omega

/-- C3: `upsert_chunks` retries up to `max_retries` (default 3)
attempts on any failure, sleeping `retry_delay * 2 ^ attempt` between
attempts; when the store fails on the first two attempts and succeeds
on the third, the call succeeds and the caller observes no error; when
every attempt fails, the last error is propagated to the caller.  The
trace records the three attempts and the two inter-attempt sleeps. -/
theorem upsert_retry_policy {ε : Type} (store : Nat → Option ε) (d : Nat) :
    (∀ e0 e1, store 0 = some e0 → store 1 = some e1 → store 2 = none →
      upsert_chunks store 3 d =
        (.ok (some true),
         [QEv.att 0, QEv.slp (d * 2 ^ 0), QEv.att 1, QEv.slp (d * 2 ^ 1), QEv.att 2]))
    ∧ (∀ f : Nat → ε, (∀ a, store a = some (f a)) →
      upsert_chunks store 3 d =
        (.error (f 2),
         [QEv.att 0, QEv.slp (d * 2 ^ 0), QEv.att 1, QEv.slp (d * 2 ^ 1), QEv.att 2]))
    ∧ (∀ m, ((upsert_chunks store m d).2.countP isAtt) ≤ m) := by
  refine ⟨?_, ?_, ?_⟩
  · intro e0 e1 h0 h1 h2
    simp [upsert_chunks, upsert_go, h0, h1, h2]
  · intro f hf
    simp [upsert_chunks, upsert_go, hf 0, hf 1, hf 2]
  · intro m
    exact upsert_go_att_le store d m 0

/-- Witness for `upsert_retry_policy` at a concrete store. -/
theorem upsert_retry_policy_witness :
    upsert_chunks upsertStoreW 3 5 =
      (.ok (some true),
       [QEv.att 0, QEv.slp (5 * 2 ^ 0), QEv.att 1, QEv.slp (5 * 2 ^ 1), QEv.att 2]) :=
  (upsert_retry_policy upsertStoreW 5).1 "boom0" "boom1" rfl rfl rfl

/-- C4: an error that is neither a rate-limit error (text containing
"rate limit" or "too many") nor a 5xx/internal-server error (text
containing "500" or "internal server error" -- the code's detection of
that class) makes `query_chunks` fail immediately on the first
occurrence: one attempt, no sleep, the error raised to the caller. -/
theorem query_nonretryable_fails_fast {δ : Type} (store : Nat → Except String δ)
    (m d : Nat) (msg : String) (hm : 0 < m) (h0 : store 0 = .error msg)
    (hr : isRateLimit msg = false) (hs : isServerError msg = false) :
    query_chunks store m d = (.error msg, [QEv.att 0]) := by
  obtain ⟨k, rfl⟩ : ∃ k, m = k + 1 := ⟨m - 1, (Nat.succ_pred_eq_of_pos hm).symm⟩
  simp [query_chunks, query_go, h0, hr, hs]

/-- Witness for `query_nonretryable_fails_fast` at a concrete store. -/
theorem query_nonretryable_fails_fast_witness :
    query_chunks queryStoreW 3 1 = (.error "invalid filter", [QEv.att 0]) :=
  query_nonretryable_fails_fast queryStoreW 3 1 "invalid filter"
    (by decide) rfl (by decide) (by decide)

/-- C5: in `query_chunks`' retry cycle, a rate-limit error at attempt
`a` (with retries remaining) is followed by a handler sleep of exactly
twice the normal backoff, `2 * (d * 2 ^ a)`; a 5xx/internal-server
error is followed by a handler sleep of the normal backoff,
`d * 2 ^ a`; and every attempt after the first is preceded by a sleep
of `d * 2 ^ a`. -/
theorem query_backoff_schedule {δ : Type} (store : Nat → Except String δ)
    (d a fuel : Nat) (msg : String) :
    (store a = .error msg → isRateLimit msg = true →
      query_go store d (fuel + 2) a =
        ((query_go store d (fuel + 1) (a + 1)).1,
         (if 0 < a then [QEv.slp (d * 2 ^ a)] else []) ++
           [QEv.att a, QEv.slp (2 * (d * 2 ^ a))] ++
           (query_go store d (fuel + 1) (a + 1)).2))
    ∧ (store a = .error msg → isRateLimit msg = false → isServerError msg = true →
      query_go store d (fuel + 2) a =
        ((query_go store d (fuel + 1) (a + 1)).1,
         (if 0 < a then [QEv.slp (d * 2 ^ a)] else []) ++
           [QEv.att a, QEv.slp (d * 2 ^ a)] ++
           (query_go store d (fuel + 1) (a + 1)).2))
    ∧ (0 < a → ∃ rest, (query_go store d (fuel + 1) a).2 = QEv.slp (d * 2 ^ a) :: rest) := by
  refine ⟨?_, ?_, ?_⟩
  · intro h hrate
    simp [query_go, h, hrate]
  · intro h hrate hserv
    simp [query_go, h, hrate, hserv]
  · intro ha
    simp only [query_go, if_pos ha]
    cases hsa : store a with
    | ok r => exact ⟨[QEv.att a], rfl⟩
    | error msg' =>
      by_cases h1 : isRateLimit msg' <;> by_cases h2 : isServerError msg' <;>
        by_cases h3 : fuel = 0 <;>
        simp [h1, h2, h3]

/-- Witness for `query_backoff_schedule` at a concrete store. -/
theorem query_backoff_schedule_witness :
    query_go queryStoreW2 1 3 0 =
      ((query_go queryStoreW2 1 2 1).1,
       (if 0 < 0 then [QEv.slp (1 * 2 ^ 0)] else []) ++
         [QEv.att 0, QEv.slp (2 * (1 * 2 ^ 0))] ++
         (query_go queryStoreW2 1 2 1).2) :=
  (query_backoff_schedule queryStoreW2 1 0 1 "429 too many requests").1 rfl (by decide)

/-- C9: `check_index_health` issues a single probe query with the
zero vector of dimension 768, `top_k = 1` and metadata excluded, and
returns `true` exactly when that query completes without raising; a
store whose query always raises yields `false`. -/
theorem check_index_health_spec {δ : Type}
    (indexQuery : List Int → Nat → Bool → Except String δ) :
    (check_index_health indexQuery = true ↔
      ∃ r, indexQuery (List.replicate 768 0) 1 false = .ok r)
    ∧ (∀ e : String,
        check_index_health (fun _ _ _ => (.error e : Except String δ)) = false) := by
  constructor
  · unfold check_index_health
    cases h : indexQuery (List.replicate 768 0) 1 false with
    | ok r => simp
    | error e => simp
  · intro e
    rfl

/-- The deduplicator's output is a subsequence of its input. -/
theorem dedup_go_sublist (seen : List String) (vs : List VectorRecord) :
    (dedup_go seen vs).Sublist vs := by
  induction vs generalizing seen with
  | nil => simp [dedup_go]
  | cons v rest ih =>
    simp only [dedup_go]
    cases hv : v.metadata.content_hash with
    | none => exact (ih seen).cons v
    | some h =>
      by_cases hk : h ≠ "" ∧ h ∉ seen
      · simpa [hk] using (ih (h :: seen)).cons₂ v
      · simpa [hk] using (ih seen).cons v

/-- Every record the deduplicator keeps has a truthy `content_hash`
that was not in `seen` on entry. -/
theorem dedup_go_kept_hash (seen : List String) (vs : List VectorRecord)
    (v : VectorRecord) (hv : v ∈ dedup_go seen vs) :
    ∃ h, v.metadata.content_hash = some h ∧ h ≠ "" ∧ h ∉ seen := by
  induction vs generalizing seen with
  | nil => simp [dedup_go] at hv
  | cons w rest ih =>
    simp only [dedup_go] at hv
    split at hv
    · rename_i h hw
      split at hv
      · rename_i hk
        rcases List.mem_cons.mp hv with rfl | hv'
        · exact ⟨h, hw, hk.1, hk.2⟩
        · rcases ih (h :: seen) hv' with ⟨h', hh', hne, hnot⟩
          exact ⟨h', hh', hne, fun hmem => hnot (List.mem_cons_of_mem _ hmem)⟩
      · exact ih seen hv
    · exact ih seen hv

/-- No two records kept by the deduplicator share a `content_hash`. -/
theorem dedup_go_pairwise (seen : List String) (vs : List VectorRecord) :
    (dedup_go seen vs).Pairwise
      (fun a b => a.metadata.content_hash ≠ b.metadata.content_hash) := by
  induction vs generalizing seen with
  | nil => simp [dedup_go]
  | cons v rest ih =>
    simp only [dedup_go]
    split
    · rename_i h hv
      split
      · rename_i hk
        refine List.Pairwise.cons ?_ (ih (h :: seen))
        intro w hw
        rcases dedup_go_kept_hash _ _ _ hw with ⟨h', hh', _, hnot⟩
        rw [hv, hh']
        intro hcontra
        have hh : h' = h := (Option.some.inj hcontra).symm
        exact hnot (by rw [hh]; exact List.mem_cons_self h seen)
      · exact ih seen
    · exact ih seen

/-- A record whose `content_hash` is truthy, not yet seen, and not the
hash of any earlier record in the batch, is kept. -/
theorem dedup_go_keeps_first (seen : List String) (vs : List VectorRecord)
    (i : Nat) (hi : i < vs.length) (h : String)
    (hh : (vs.get ⟨i, hi⟩).metadata.content_hash = some h)
    (hne : h ≠ "") (hseen : h ∉ seen)
    (hfirst : ∀ j (hj : j < i),
      (vs.get ⟨j, Nat.lt_trans hj hi⟩).metadata.content_hash ≠ some h) :
    vs.get ⟨i, hi⟩ ∈ dedup_go seen vs := by
  induction vs generalizing seen i with
  | nil => exact absurd hi (by simp)
  | cons v rest ih =>
    cases i with
    | zero =>
      simp only [List.get] at hh ⊢
      simp only [dedup_go, hh]
      rw [if_pos (show h ≠ "" ∧ h ∉ seen from ⟨hne, hseen⟩)]
      exact List.mem_cons_self _ _
    | succ j =>
      have hj : j < rest.length := Nat.lt_of_succ_lt_succ hi
      have hhead : v.metadata.content_hash ≠ some h := by
        have := hfirst 0 (Nat.succ_pos j)
        simpa using this
      have hrest : ∀ k (hk : k < j),
          (rest.get ⟨k, Nat.lt_trans hk hj⟩).metadata.content_hash ≠ some h := by
        intro k hk
        have := hfirst (k + 1) (Nat.succ_lt_succ hk)
        simpa using this
      simp only [List.get] at hh ⊢
      simp only [dedup_go]
      split
      · rename_i h' hv
        split
        · rename_i hk
          refine List.mem_cons_of_mem _ ?_
          refine ih (h' :: seen) j hj hh ?_ hrest
          intro hmem
          rcases List.mem_cons.mp hmem with heq2 | hmem'
          · exact hhead (by rw [hv, heq2])
          · exact hseen hmem'
        · exact ih seen j hj hh hseen hrest
      · exact ih seen j hj hh hseen hrest

/-- The keep/drop decisions of the deduplicator depend only on the
`content_hash` fields: a record-wise relabelling that preserves
`content_hash` commutes with deduplication. -/
theorem dedup_go_map (f : VectorRecord → VectorRecord)
    (hf : ∀ v, (f v).metadata.content_hash = v.metadata.content_hash)
    (seen : List String) (vs : List VectorRecord) :
    dedup_go seen (vs.map f) = (dedup_go seen vs).map f := by
  induction vs generalizing seen with
  | nil => simp [dedup_go]
  | cons v rest ih =>
    simp only [List.map_cons, dedup_go, hf v]
    cases hv : v.metadata.content_hash with
    | none => exact ih seen
    | some h =>
      by_cases hk : h ≠ "" ∧ h ∉ seen
      · simp [hk, ih (h :: seen)]
      · simp [hk, ih seen]

/-- The deduplicator never lengthens a batch. -/
theorem dedup_length_le (l : List VectorRecord) :
    (deduplicate_vectors l).length ≤ l.length :=
  (dedup_go_sublist [] l).length_le

/-- Every record in `deduplicate_vectors`' output has a truthy
`content_hash`. -/
theorem dedup_all_truthy (vs : List VectorRecord) (v : VectorRecord)
    (hv : v ∈ deduplicate_vectors vs) :
    truthy v.metadata.content_hash = true := by
  rcases dedup_go_kept_hash [] vs v hv with ⟨h, hh, hne, -⟩
  simp [truthy, hh, hne]

/-- The deduplicator keeps at most as many records as have a truthy
`content_hash`. -/
theorem dedup_length_le_truthy (vs : List VectorRecord) :
    (deduplicate_vectors vs).length ≤
      vs.countP (fun v => truthy v.metadata.content_hash) := by
  have hfil : (deduplicate_vectors vs).filter
      (fun v => truthy v.metadata.content_hash) = deduplicate_vectors vs :=
    List.filter_eq_self.mpr (fun a ha => by simp [dedup_all_truthy vs a ha])
  calc (deduplicate_vectors vs).length
      = ((deduplicate_vectors vs).filter
          (fun v => truthy v.metadata.content_hash)).length := by rw [hfil]
    _ ≤ (vs.filter (fun v => truthy v.metadata.content_hash)).length :=
        ((dedup_go_sublist [] vs).filter _).length_le
    _ = vs.countP (fun v => truthy v.metadata.content_hash) :=
        (List.countP_eq_length_filter _ _).symm

/-- If the item loop returns successfully, the accumulated pre-dedup
count is the sum of the per-item chunk counts and the accumulated
post-dedup count is the sum of the per-item deduplicated-batch
lengths. -/
theorem integrate_loop_ok_counts (mkV : Item → Chunk → VectorRecord)
    (chunker : String → List Chunk)
    (upsertFails : List VectorRecord → Option String) :
    ∀ (items : List Item) (total stored : Nat)
      (log : List (List VectorRecord)) (t s : Nat)
      (log' : List (List VectorRecord)),
      integrate_loop mkV chunker upsertFails items total stored log =
        .ok (t, s, log') →
      t = total + (items.map (fun it => (chunker it.content).length)).sum
      ∧ s = stored + (items.map (fun it =>
          (deduplicate_vectors ((chunker it.content).map (mkV it))).length)).sum := by
  intro items
  induction items with
  | nil =>
    intro total stored log t s log' h
    simp only [integrate_loop, Except.ok.injEq, Prod.mk.injEq] at h
    obtain ⟨h1, h2, -⟩ := h
    simp [← h1, ← h2]
  | cons item rest ih =>
    intro total stored log t s log' h
    simp only [integrate_loop] at h
    split at h
    · rcases ih _ _ _ _ _ _ h with ⟨h1, h2⟩
      simp only [List.map_cons, List.sum_cons]
      omega
    · split at h
      · exact absurd h (by simp)
      · rcases ih _ _ _ _ _ _ h with ⟨h1, h2⟩
        simp only [List.map_cons, List.sum_cons]
        omega

/-- Every batch the item loop adds to the upsert log is an output of
the deduplicator, so all its records have truthy hashes. -/
theorem integrate_loop_log_truthy (mkV : Item → Chunk → VectorRecord)
    (chunker : String → List Chunk)
    (upsertFails : List VectorRecord → Option String) :
    ∀ (items : List Item) (total stored : Nat)
      (log : List (List VectorRecord)) (t s : Nat)
      (log' : List (List VectorRecord)),
      integrate_loop mkV chunker upsertFails items total stored log =
        .ok (t, s, log') →
      (∀ b ∈ log, ∀ w ∈ b, truthy w.metadata.content_hash = true) →
      ∀ b ∈ log', ∀ w ∈ b, truthy w.metadata.content_hash = true := by
  intro items
  induction items with
  | nil =>
    intro total stored log t s log' h hlog
    simp only [integrate_loop, Except.ok.injEq, Prod.mk.injEq] at h
    obtain ⟨-, -, h3⟩ := h
    exact h3 ▸ hlog
  | cons item rest ih =>
    intro total stored log t s log' h hlog
    simp only [integrate_loop] at h
    split at h
    · exact ih _ _ _ _ _ _ h hlog
    · split at h
      · exact absurd h (by simp)
      · refine ih _ _ _ _ _ _ h ?_
        intro b hb w hw
        rcases List.mem_append.mp hb with hb' | hb'
        · exact hlog b hb' w hw
        · have hbu : b = deduplicate_vectors
              ((chunker item.content).map (mkV item)) := by simpa using hb'
          exact dedup_all_truthy _ w (hbu ▸ hw)

/-- With a store whose upserts always succeed, the item loop returns
successfully and the upsert log extends by exactly the non-empty
deduplicated per-item batches, in item order. -/
theorem integrate_loop_none (mkV : Item → Chunk → VectorRecord)
    (chunker : String → List Chunk) :
    ∀ (items : List Item) (total stored : Nat)
      (log : List (List VectorRecord)),
      integrate_loop mkV chunker (fun _ => none) items total stored log =
        .ok (total + (items.map (fun it => (chunker it.content).length)).sum,
             stored + (items.map (fun it =>
               (deduplicate_vectors ((chunker it.content).map (mkV it))).length)).sum,
             log ++ (items.map (fun it =>
               deduplicate_vectors ((chunker it.content).map (mkV it)))).filter
                 (fun l => !l.isEmpty)) := by
  intro items
  induction items with
  | nil => intro total stored log; simp [integrate_loop]
  | cons item rest ih =>
    intro total stored log
    simp only [integrate_loop]
    split
    · rename_i hemp
      rw [ih]
      simp only [List.map_cons, List.sum_cons, List.filter_cons, hemp]
      have hlen : (deduplicate_vectors
          ((chunker item.content).map (mkV item))).length = 0 :=
        List.isEmpty_iff_length_eq_zero.mp hemp
      simp [hlen]
      omega
    · rename_i hemp
      rw [ih]
      have hne : (!(deduplicate_vectors
          ((chunker item.content).map (mkV item))).isEmpty) = true := by
        simp only [Bool.not_eq_true']
        exact Bool.not_eq_true _ ▸ (by simpa using hemp)
      simp only [List.map_cons, List.sum_cons, List.filter_cons, hne, if_true]
      simp [Nat.add_assoc, List.append_assoc]

/-- Inversion of a successful `integrate_source` run: the connector
returned data and the item loop succeeded; the result is the success
record built from the loop's counters, and the returned log is the
loop's log. -/
theorem integrate_source_success_inv
    (integration srcLabel errLabel : String) (useItemTs : Bool)
    (chunker : String → List Chunk) (embed : String → List Int)
    (upsertFails : List VectorRecord → Option String) (now : String)
    (data : List Item)
    (hs : (integrate_source integration srcLabel errLabel useItemTs chunker
        embed upsertFails now data).1.success = true) :
    data.isEmpty = false ∧ ∃ t s log,
      integrate_loop (mkVector integration integration useItemTs now embed)
          chunker upsertFails data 0 0 [] = .ok (t, s, log) ∧
      integrate_source integration srcLabel errLabel useItemTs chunker embed
          upsertFails now data =
        ({ success := true, error := none, source := some srcLabel,
           docs_processed := some data.length, chunks_processed := t,
           chunks_stored := s, duplicates_removed := some (t - s),
           integration := some integration }, log) := by
  unfold integrate_source at hs ⊢
  cases hd : data.isEmpty with
  | true => rw [hd] at hs; simp at hs
  | false =>
    have hne : ¬ (data.isEmpty = true) := by simp [hd]
    cases hl : integrate_loop (mkVector integration integration useItemTs now embed)
        chunker upsertFails data 0 0 [] with
    | ok x =>
      obtain ⟨t, s, log⟩ := x
      refine ⟨rfl, t, s, log, rfl, ?_⟩
      simp
    | error e =>
      obtain ⟨elog, emsg⟩ := e
      rw [hl, if_neg hne] at hs
      simp at hs

/-- C2: for every source-integration call that returns success, the
reported `duplicates_removed` equals `chunks_processed` minus
`chunks_stored`, where `chunks_processed` sums the pre-deduplication
chunk counts over all items and `chunks_stored` sums the
per-item deduplication survivors (which never exceed the processed
count). -/
theorem integration_counters (integration srcLabel errLabel : String)
    (useItemTs : Bool) (chunker : String → List Chunk)
    (embed : String → List Int)
    (upsertFails : List VectorRecord → Option String) (now : String)
    (data : List Item)
    (hs : (integrate_source integration srcLabel errLabel useItemTs chunker
        embed upsertFails now data).1.success = true) :
    let r := (integrate_source integration srcLabel errLabel useItemTs chunker
        embed upsertFails now data).1
    r.duplicates_removed = some (r.chunks_processed - r.chunks_stored)
    ∧ r.chunks_processed =
        (data.map (fun it => (chunker it.content).length)).sum
    ∧ r.chunks_stored = (data.map (fun it =>
        (deduplicate_vectors ((chunker it.content).map
          (mkVector integration integration useItemTs now embed it))).length)).sum
    ∧ r.chunks_stored ≤ r.chunks_processed := by
  intro r
  rcases integrate_source_success_inv integration srcLabel errLabel useItemTs
    chunker embed upsertFails now data hs with ⟨hd, t, s, log, hl, heq⟩
  have hr2 : r =
      { success := true, error := none, source := some srcLabel,
        docs_processed := some data.length, chunks_processed := t,
        chunks_stored := s, duplicates_removed := some (t - s),
        integration := some integration } := congrArg Prod.fst heq
  rcases integrate_loop_ok_counts
    (mkVector integration integration useItemTs now embed) chunker upsertFails
    data 0 0 [] t s log hl with ⟨ht, hst⟩
  have hle : s ≤ t := by
    have hpt : ∀ it ∈ data,
        (deduplicate_vectors ((chunker it.content).map
          (mkVector integration integration useItemTs now embed it))).length
          ≤ (chunker it.content).length := by
      intro it _
      calc (deduplicate_vectors ((chunker it.content).map
              (mkVector integration integration useItemTs now embed it))).length
          ≤ ((chunker it.content).map
              (mkVector integration integration useItemTs now embed it)).length :=
            dedup_length_le _
        _ = (chunker it.content).length := by simp
    have hsum := List.sum_le_sum hpt
    omega
  rw [hr2]
  exact ⟨rfl, by simpa using ht, by simpa using hst, by simpa using hle⟩

/-- Witness for `integration_counters` at a concrete run with one
duplicated chunk. -/
theorem integration_counters_witness :
    srcRun2.1.duplicates_removed =
      some (srcRun2.1.chunks_processed - srcRun2.1.chunks_stored) :=
  (integration_counters "github" "github://o/r" "GitHub" false chunker2 embed1
    upOk "t0" [item2] (by decide)).1

/-- C8: `_deduplicate_vectors` scans the batch in order: the output is
a subsequence of the input (relative order preserved), no two kept
records share a `content_hash`, the first occurrence of each (truthy)
`content_hash` is kept, and the keep/drop decisions ignore every field
but `content_hash` — in particular source names and priorities: any
relabelling preserving `content_hash` commutes with deduplication. -/
theorem deduplicate_vectors_spec (vs : List VectorRecord)
    (f : VectorRecord → VectorRecord)
    (hf : ∀ v, (f v).metadata.content_hash = v.metadata.content_hash) :
    (deduplicate_vectors vs).Sublist vs
    ∧ (deduplicate_vectors vs).Pairwise
        (fun a b => a.metadata.content_hash ≠ b.metadata.content_hash)
    ∧ (∀ i (hi : i < vs.length) (h : String),
        (vs.get ⟨i, hi⟩).metadata.content_hash = some h → h ≠ "" →
        (∀ j (hj : j < i),
          (vs.get ⟨j, Nat.lt_trans hj hi⟩).metadata.content_hash ≠ some h) →
        vs.get ⟨i, hi⟩ ∈ deduplicate_vectors vs)
    ∧ deduplicate_vectors (vs.map f) = (deduplicate_vectors vs).map f := by
  refine ⟨dedup_go_sublist [] vs, dedup_go_pairwise [] vs, ?_,
    dedup_go_map f hf [] vs⟩
  intro i hi h hh hne hfirst
  exact dedup_go_keeps_first [] vs i hi h hh hne (by simp) hfirst

/-- Witness for `deduplicate_vectors_spec` at a concrete batch. -/
theorem deduplicate_vectors_spec_witness :
    (deduplicate_vectors dedupBatchW).Sublist dedupBatchW
    ∧ dedupBatchW.get ⟨2, by decide⟩ ∈ deduplicate_vectors dedupBatchW :=
  ⟨(deduplicate_vectors_spec dedupBatchW id (fun _ => rfl)).1,
   (deduplicate_vectors_spec dedupBatchW id (fun _ => rfl)).2.2.1 2 (by decide)
     "h2" (by decide) (by decide) (by decide)⟩

/-- Splitting a count over a predicate and its negation. -/
theorem countP_split {α : Type} (p : α → Bool) (l : List α) :
    l.countP p + l.countP (fun a => !(p a)) = l.length := by
  induction l with
  | nil => simp
  | cons a rest ih =>
    by_cases h : p a <;> simp [List.countP_cons, h] <;> omega

/-- Pointwise-bounded sums. -/
theorem sum_add_le_sum {α : Type} (l : List α) (f g h : α → Nat)
    (hpt : ∀ x ∈ l, f x + g x ≤ h x) :
    (l.map f).sum + (l.map g).sum ≤ (l.map h).sum := by
  induction l with
  | nil => simp
  | cons a rest ih =>
    have h1 := hpt a (List.mem_cons_self a rest)
    have h2 := ih (fun x hx => hpt x (List.mem_cons_of_mem a hx))
    simp only [List.map_cons, List.sum_cons]
    omega

/-- C10: a record whose metadata has no `content_hash`, or whose
`content_hash` is empty (falsy), is removed by `_deduplicate_vectors`
even when its content is unique in the batch; in a successful source
run no stored record has a falsy hash, and the falsy-hash chunks are
counted toward the reported `duplicates_removed`. -/
theorem falsy_hash_dropped (vs : List VectorRecord) (v : VectorRecord)
    (integration srcLabel errLabel : String) (useItemTs : Bool)
    (chunker : String → List Chunk) (embed : String → List Int)
    (upsertFails : List VectorRecord → Option String) (now : String)
    (data : List Item)
    (hfalsy : truthy v.metadata.content_hash = false) :
    v ∉ deduplicate_vectors vs
    ∧ ((integrate_source integration srcLabel errLabel useItemTs chunker embed
          upsertFails now data).1.success = true →
        (∀ b ∈ (integrate_source integration srcLabel errLabel useItemTs chunker
            embed upsertFails now data).2,
          ∀ w ∈ b, truthy w.metadata.content_hash = true)
        ∧ ∃ d, (integrate_source integration srcLabel errLabel useItemTs chunker
              embed upsertFails now data).1.duplicates_removed = some d
            ∧ (data.map (fun it => ((chunker it.content).map
                (mkVector integration integration useItemTs now embed it)).countP
                  (fun w => !(truthy w.metadata.content_hash)))).sum ≤ d) := by
  constructor
  · intro hmem
    have := dedup_all_truthy vs v hmem
    rw [hfalsy] at this
    exact Bool.false_ne_true this
  · intro hs
    rcases integrate_source_success_inv integration srcLabel errLabel useItemTs
      chunker embed upsertFails now data hs with ⟨hd, t, s, log, hl, heq⟩
    have hlog : (integrate_source integration srcLabel errLabel useItemTs chunker
        embed upsertFails now data).2 = log := congrArg Prod.snd heq
    have hdup : (integrate_source integration srcLabel errLabel useItemTs chunker
        embed upsertFails now data).1.duplicates_removed = some (t - s) := by
      rw [congrArg Prod.fst heq]
    rcases integrate_loop_ok_counts
      (mkVector integration integration useItemTs now embed) chunker upsertFails
      data 0 0 [] t s log hl with ⟨ht, hst⟩
    constructor
    · rw [hlog]
      exact integrate_loop_log_truthy _ _ _ data 0 0 [] t s log hl (by simp)
    · refine ⟨t - s, hdup, ?_⟩
      have hpt : ∀ it ∈ data,
          ((chunker it.content).map
            (mkVector integration integration useItemTs now embed it)).countP
              (fun w => !(truthy w.metadata.content_hash))
          + (deduplicate_vectors ((chunker it.content).map
              (mkVector integration integration useItemTs now embed it))).length
          ≤ (chunker it.content).length := by
        intro it _
        have hsplit := countP_split
          (fun w => truthy w.metadata.content_hash)
          ((chunker it.content).map
            (mkVector integration integration useItemTs now embed it))
        have hded := dedup_length_le_truthy
          ((chunker it.content).map
            (mkVector integration integration useItemTs now embed it))
        have hlen : ((chunker it.content).map
            (mkVector integration integration useItemTs now embed it)).length
            = (chunker it.content).length := by simp
        omega
      have hsum := sum_add_le_sum data _ _ _ hpt
      omega

/-- Witness for `falsy_hash_dropped` at a concrete batch and run. -/
theorem falsy_hash_dropped_witness :
    mkRec "u" none "github" ∉ deduplicate_vectors [mkRec "u" none "github"]
    ∧ ∀ b ∈ srcRun10.2, ∀ w ∈ b, truthy w.metadata.content_hash = true :=
  ⟨(falsy_hash_dropped [mkRec "u" none "github"] (mkRec "u" none "github")
      "github" "github://o/r" "GitHub" false chunker10 embed1 upOk "t0" [item2]
      (by decide)).1,
   ((falsy_hash_dropped [mkRec "u" none "github"] (mkRec "u" none "github")
      "github" "github://o/r" "GitHub" false chunker10 embed1 upOk "t0" [item2]
      (by decide)).2 (by decide)).1⟩

/-- C6 (amended): an embedding failure — the embedding call returning
an empty vector, as `get_embedding` does on any API error — never
changes which records are stored and never aborts the source run:
with a store whose upserts succeed, the upsert log is exactly the
non-empty deduplicated per-item batches (values play no role in the
selection, so a chunk with an empty embedding is upserted, not
skipped), and the run succeeds whenever the connector returned data. -/
theorem embedding_failure_soft (integration srcLabel errLabel : String)
    (useItemTs : Bool) (chunker : String → List Chunk)
    (api : String → Except String (List Int)) (now : String)
    (data : List Item) :
    (integrate_source integration srcLabel errLabel useItemTs chunker
        (get_embedding api) (fun _ => none) now data).2 =
      (data.map (fun it => deduplicate_vectors ((chunker it.content).map
        (mkVector integration integration useItemTs now
          (get_embedding api) it)))).filter (fun l => !l.isEmpty)
    ∧ (data.isEmpty = false →
        (integrate_source integration srcLabel errLabel useItemTs chunker
          (get_embedding api) (fun _ => none) now data).1.success = true) := by
  have hloop := integrate_loop_none
    (mkVector integration integration useItemTs now (get_embedding api))
    chunker data 0 0 []
  constructor
  · unfold integrate_source
    cases hd : data.isEmpty with
    | true =>
      have hnil : data = [] := List.isEmpty_iff.mp hd
      subst hnil
      simp
    | false => simp [hloop]
  · intro hdne
    unfold integrate_source
    rw [if_neg (by simp [hdne])]
    simp [hloop]

/-- C6 (counterexample): the chunk whose embedding failed is NOT
skipped — the upsert log of the run contains a record with an empty
`values` list. -/
theorem embedding_failure_chunk_still_stored :
    ¬ (∀ v ∈ run6.2.flatten, v.values ≠ []) := by decide

/-- Witness for `embedding_failure_soft` at the concrete
embedding-failure run. -/
theorem embedding_failure_soft_witness :
    (integrate_source "github" "github://o/r" "GitHub" false chunker6
      (get_embedding api6) upOk "t0" [item6]).1.success = true :=
  (embedding_failure_soft "github" "github://o/r" "GitHub" false chunker6 api6
    "t0" [item6]).2 (by decide)

/-- C7 (counterexample): the per-source result of a skipped source IS
reported as an error (`success = False` with an error message). -/
theorem empty_source_result_is_error :
    ¬ (∀ r ∈ run7.1.integrations, r.error = none) := by decide

/-- C7 (amended): a connector returning no data and one reporting
missing credentials reach the same empty-data branch (they are
indistinguishable to the orchestrator), the integrate-all run keeps
overall `success = True`, excludes the source from
`sources_integrated`, adds nothing to the totals and stores nothing —
but the per-source result is recorded with `success = False` and a
descriptive error message. -/
theorem empty_source_skipped (owner repo : String)
    (chunker : String → List Chunk) (embed : String → List Int)
    (upsertFails : List VectorRecord → Option String) (now : String) :
    let all := integrate_all_sources chunker embed upsertFails now
      (some (owner, repo, [])) none none
    all.1.success = true
    ∧ all.1.sources_integrated = []
    ∧ all.1.total_chunks_processed = 0
    ∧ all.1.total_chunks_stored = 0
    ∧ all.1.total_duplicates_removed = 0
    ∧ all.1.integrations.map (fun r => (r.success, r.error)) =
        [(false, some "No data found or GitHub token not configured")]
    ∧ all.2 = [] := by
  exact ⟨rfl, rfl, rfl, rfl, rfl, rfl, rfl⟩

/-- C1 (counterexample): two items with identical content from github
then slack in one priority-ordered integrate-all run do NOT store
exactly one github-tagged record for that content. -/
theorem cross_source_duplicate_kept_twice_cex :
    ¬ ((storedFor "X").length = 1 ∧
       ∀ v ∈ storedFor "X", v.metadata.source_name = "github") := by decide

/-- C1 (amended): that run stores TWO records for the shared content —
the github-tagged one first, then the slack-tagged one — because
deduplication state is scoped to a single item's batch and is never
shared across items or sources; both sources report success. -/
theorem cross_source_duplicate_kept_twice :
    (storedFor "X").map (fun v => v.metadata.source_name) =
      ["github", "slack"]
    ∧ (run1 "X").1.sources_integrated = ["github", "slack"] := by decide

end DevHive

